import Mathlib

set_option linter.unusedVariables false

/-!
Verification development for the workflow / status-machine core of the
`ai-manager-system` backend.

The Lean definitions below are a shallow embedding of the Python source:

* `backend/app/services/project_service.py`
  (`smart_status_transition`, `_validate_status_transition`,
  `_handle_status_side_effects`, `_log_status_change`);
* `backend/app/services/workflow_service.py`
  (`register_rule`, `trigger_workflow`, `_find_matching_rules`,
  `_check_trigger_conditions`, `_execute_rule`, `_handle_update_status`,
  `_handle_assign_user`);
* `backend/app/api/projects.py` (`update_project_status`);
* `backend/app/tasks/scheduler.py` (`add_one_time_job`).

Database sessions are modelled by an explicit `DBState` value holding the
rows the embedded functions read or write (projects, users, status logs).
Timestamps (`datetime.utcnow()`) are modelled by a `Nat` clock value passed
in explicitly.  External gateways (notification transport, AI service) are
out of the embedded core, exactly as the specification scopes them out.
-/

deriving instance DecidableEq for Except

namespace AIMS

/-- Project lifecycle statuses, from `StatusEnum` in `backend/app/__init__.py`. -/
inductive Status
  | pendingQuote
  | quoted
  | confirmed
  | depositPaid
  | inDesign
  | pendingApproval
  | approved
  | inProduction
  | completed
  | paid
  | archived
  deriving DecidableEq

/-- User roles, from `RoleEnum` in `backend/app/__init__.py`. -/
inductive Role
  | admin
  | designer
  | finance
  | sales
  deriving DecidableEq

/-- The fields of the `User` model that the embedded functions read. -/
structure User where
  id : Nat
  role : Role
  is_admin : Bool
  deriving DecidableEq

/-- The fields of the `Project` model that the embedded functions read or
write.  `designer_id` is a nullable foreign key; Python truthiness of the
column (`if project.designer_id:`) treats both `None` and `0` as false, which
is mirrored by `truthyOptNat` below. -/
structure Project where
  id : Nat
  status : Status
  designer_id : Option Nat := none
  creator_id : Nat := 0
  started_at : Option Nat := none
  completed_at : Option Nat := none
  deposit_paid : Bool := false
  final_paid : Bool := false
  updated_at : Nat := 0
  deriving DecidableEq

/-- A `ProjectStatusLog` row (the StatusChangeRecord of the spec). -/
structure StatusLog where
  project_id : Nat
  user_id : Nat
  from_status : Status
  to_status : Status
  change_reason : Option String
  notes : Option String := none
  created_at : Nat
  deriving DecidableEq

/-- The database rows touched by the embedded functions. -/
structure DBState where
  projects : List Project := []
  users : List User := []
  statusLogs : List StatusLog := []
  deriving DecidableEq

/-- `db.query(Project).filter(Project.id == project_id).first()`. -/
def findProject (db : DBState) (pid : Nat) : Option Project :=
  db.projects.find? (fun p => p.id == pid)

/-- Committing a mutated project row back: replace the row with the same id. -/
def updateProject (db : DBState) (p : Project) : DBState :=
  { db with projects := db.projects.map (fun q => if q.id == p.id then p else q) }

/-- The transition table `valid_transitions` of
`ProjectService._validate_status_transition`.  A status missing from the
Python dict yields `[]` via `.get(old_status, [])`. -/
def validTransitions : Status → List Status
  | .pendingQuote => [.quoted, .archived]
  | .quoted => [.confirmed, .pendingQuote]
  | .confirmed => [.depositPaid, .quoted]
  | .depositPaid => [.inDesign]
  | .inDesign => [.pendingApproval]
  | .pendingApproval => [.approved, .inDesign]
  | .approved => [.inProduction]
  | .inProduction => [.completed]
  | .completed => [.paid, .archived]
  | .paid => [.archived]
  | .archived => []

/-- The override capability: `operator.is_admin or operator.role == RoleEnum.ADMIN`. -/
def isPrivileged (op : User) : Bool :=
  op.is_admin || op.role == Role.admin

/-- Business exceptions raised by `ProjectService`. -/
inductive ProjError
  | projectNotFound
  | illegalTransition (fromS toS : Status)
  deriving DecidableEq

/-- `ProjectService._validate_status_transition`: raises (returns `.error`)
iff the target is not in the transition table and the operator lacks the
override capability. -/
def validateStatusTransition (oldS newS : Status) (op : User) : Except ProjError Unit :=
  if newS ∈ validTransitions oldS then .ok ()
  else if isPrivileged op then .ok ()
  else .error (.illegalTransition oldS newS)

/-- `ProjectService._handle_status_side_effects`: timestamps are set only when
the column is still null (`not project.started_at`), payment flags are set to
`True` on entering the corresponding status.  Returns the mutated project and
the effect descriptions accumulated by the Python function. -/
def handleStatusSideEffects (p : Project) (oldS newS : Status) (now : Nat) :
    Project × List String :=
  let acc1 :=
    if newS = Status.inDesign ∧ p.started_at = none then
      ({ p with started_at := some now }, ["设置项目开始时间"])
    else (p, [])
  let acc2 :=
    if newS = Status.completed ∧ acc1.1.completed_at = none then
      ({ acc1.1 with completed_at := some now }, acc1.2 ++ ["设置项目完成时间"])
    else acc1
  let acc3 :=
    if newS = Status.depositPaid then
      ({ acc2.1 with deposit_paid := true }, acc2.2 ++ ["标记定金已付"])
    else acc2
  if newS = Status.paid then
    ({ acc3.1 with final_paid := true }, acc3.2 ++ ["标记尾款已付"])
  else acc3

/-- Result payload of a successful `smart_status_transition`. -/
structure TransResult where
  old_status : Status
  new_status : Status
  side_effects : List String
  deriving DecidableEq

/-- `ProjectService.smart_status_transition`.  The state is threaded
explicitly; a raised exception is returned as `.error` together with the
database state at the moment of the raise (both raises happen before any
mutation).  The notification fan-out is an external gateway call and is not
part of the embedded state. -/
def smartStatusTransition (db : DBState) (pid : Nat) (newS : Status) (op : User)
    (notes : Option String) (now : Nat) : DBState × Except ProjError TransResult :=
  match findProject db pid with
  | none => (db, .error .projectNotFound)
  | some p =>
    let oldS := p.status
    match validateStatusTransition oldS newS op with
    | .error e => (db, .error e)
    | .ok _ =>
      let p1 := { p with status := newS, updated_at := now }
      let pe := handleStatusSideEffects p1 oldS newS now
      let log : StatusLog :=
        { project_id := p.id, user_id := op.id, from_status := oldS, to_status := newS,
          change_reason := some "状态流转", notes := notes, created_at := now }
      let db1 := updateProject db pe.1
      let db2 := { db1 with statusLogs := db1.statusLogs ++ [log] }
      (db2, .ok { old_status := oldS, new_status := newS, side_effects := pe.2 })

/-- Applying the side-effect handler a second time for the same target status
leaves the project unchanged: each timestamp is guarded by a null check and
each flag assignment is idempotent. -/
theorem handleStatusSideEffects_idem (p : Project) (o o' : Status) (newS : Status)
    (t1 t2 : Nat) :
    (handleStatusSideEffects (handleStatusSideEffects p o newS t1).1 o' newS t2).1 =
      (handleStatusSideEffects p o newS t1).1 := by
  cases newS <;>
    simp only [handleStatusSideEffects] <;>
    by_cases h1 : p.started_at = none <;>
    by_cases h2 : p.completed_at = none <;>
    simp [h1, h2]

/-- C1: for a found project with status `S`, a non-privileged operator gets
`IllegalTransition` exactly when the target is outside `TransitionTable[S]`;
in that case the database (project rows and status logs) is unchanged; and a
privileged operator never gets `IllegalTransition` for any pair of statuses. -/
theorem smartStatusTransition_illegal_characterization
    (db : DBState) (pid : Nat) (newS : Status) (op : User) (notes : Option String)
    (now : Nat) (p : Project) (hp : findProject db pid = some p) :
    (isPrivileged op = false →
      (((smartStatusTransition db pid newS op notes now).2 =
          .error (.illegalTransition p.status newS)) ↔ newS ∉ validTransitions p.status)
      ∧ (newS ∉ validTransitions p.status →
          (smartStatusTransition db pid newS op notes now).1 = db))
    ∧ (isPrivileged op = true →
        ∀ a b : Status, (smartStatusTransition db pid newS op notes now).2 ≠
          .error (.illegalTransition a b)) := by
  constructor
  · intro hpriv
    by_cases hm : newS ∈ validTransitions p.status
    · constructor
      · simp [smartStatusTransition, validateStatusTransition, hp, hm]
      · intro hnm; exact absurd hm hnm
    · constructor
      · simp [smartStatusTransition, validateStatusTransition, hp, hm, hpriv]
      · intro _
        simp [smartStatusTransition, validateStatusTransition, hp, hm, hpriv]
  · intro hpriv a b
    by_cases hm : newS ∈ validTransitions p.status
    · simp [smartStatusTransition, validateStatusTransition, hp, hm]
    · simp [smartStatusTransition, validateStatusTransition, hp, hm, hpriv]

/-- Witness for C1 at a concrete input: project 1 sits at `pendingQuote`,
a non-admin sales user requests `completed`, which is not reachable. -/
theorem smartStatusTransition_illegal_characterization_witness :
    (findProject { projects := [{ id := 1, status := Status.pendingQuote }] } 1 =
      some { id := 1, status := Status.pendingQuote }) ∧
    ((isPrivileged ⟨2, Role.sales, false⟩ = false →
      (((smartStatusTransition { projects := [{ id := 1, status := Status.pendingQuote }] }
            1 Status.completed ⟨2, Role.sales, false⟩ none 5).2 =
          .error (.illegalTransition
            (Project.mk 1 Status.pendingQuote none 0 none none false false 0).status
            Status.completed)) ↔
        Status.completed ∉ validTransitions
          (Project.mk 1 Status.pendingQuote none 0 none none false false 0).status)
      ∧ (Status.completed ∉ validTransitions
            (Project.mk 1 Status.pendingQuote none 0 none none false false 0).status →
          (smartStatusTransition { projects := [{ id := 1, status := Status.pendingQuote }] }
              1 Status.completed ⟨2, Role.sales, false⟩ none 5).1 =
            { projects := [{ id := 1, status := Status.pendingQuote }] }))
    ∧ (isPrivileged ⟨2, Role.sales, false⟩ = true →
        ∀ a b : Status,
          (smartStatusTransition { projects := [{ id := 1, status := Status.pendingQuote }] }
              1 Status.completed ⟨2, Role.sales, false⟩ none 5).2 ≠
            .error (.illegalTransition a b))) :=
  ⟨by decide,
   smartStatusTransition_illegal_characterization
     { projects := [{ id := 1, status := Status.pendingQuote }] }
     1 Status.completed ⟨2, Role.sales, false⟩ none 5
     (Project.mk 1 Status.pendingQuote none 0 none none false false 0) (by decide)⟩

/-- C2: for a found project with status `S` and a target `T` in
`TransitionTable[S]`, the transition succeeds, exactly one status-change
record with `from = S, to = T` is appended, and the status side effects are
idempotent (a second entry into the same status leaves the project fields
unchanged). -/
theorem smartStatusTransition_success
    (db : DBState) (pid : Nat) (newS : Status) (op : User) (notes : Option String)
    (now : Nat) (p : Project) (hp : findProject db pid = some p)
    (hm : newS ∈ validTransitions p.status) :
    ((smartStatusTransition db pid newS op notes now).2 =
      .ok { old_status := p.status, new_status := newS,
            side_effects := (handleStatusSideEffects
              { p with status := newS, updated_at := now } p.status newS now).2 })
    ∧ ((smartStatusTransition db pid newS op notes now).1.statusLogs =
        db.statusLogs ++
          [{ project_id := p.id, user_id := op.id, from_status := p.status,
             to_status := newS, change_reason := some "状态流转", notes := notes,
             created_at := now }])
    ∧ (∀ (q : Project) (o o' : Status) (t1 t2 : Nat),
        (handleStatusSideEffects (handleStatusSideEffects q o newS t1).1 o' newS t2).1 =
          (handleStatusSideEffects q o newS t1).1) := by
  refine ⟨?_, ?_, fun q o o' t1 t2 => handleStatusSideEffects_idem q o o' newS t1 t2⟩ <;>
    simp [smartStatusTransition, validateStatusTransition, hp, hm, updateProject]

/-- Witness for C2 at a concrete input: project 1 at `pendingQuote` moves to
`quoted`, a legal transition. -/
theorem smartStatusTransition_success_witness :
    (findProject { projects := [{ id := 1, status := Status.pendingQuote }] } 1 =
      some { id := 1, status := Status.pendingQuote }) ∧
    (Status.quoted ∈ validTransitions
      (Project.mk 1 Status.pendingQuote none 0 none none false false 0).status) ∧
    (((smartStatusTransition { projects := [{ id := 1, status := Status.pendingQuote }] }
          1 Status.quoted ⟨2, Role.sales, false⟩ none 5).2 =
      .ok { old_status := (Project.mk 1 Status.pendingQuote none 0 none none false false 0).status,
            new_status := Status.quoted,
            side_effects := (handleStatusSideEffects
              { Project.mk 1 Status.pendingQuote none 0 none none false false 0 with
                  status := Status.quoted, updated_at := 5 }
              (Project.mk 1 Status.pendingQuote none 0 none none false false 0).status
              Status.quoted 5).2 })
    ∧ ((smartStatusTransition { projects := [{ id := 1, status := Status.pendingQuote }] }
          1 Status.quoted ⟨2, Role.sales, false⟩ none 5).1.statusLogs =
        ({ projects := [{ id := 1, status := Status.pendingQuote }] } : DBState).statusLogs ++
          [{ project_id := (Project.mk 1 Status.pendingQuote none 0 none none false false 0).id,
             user_id := (⟨2, Role.sales, false⟩ : User).id,
             from_status :=
               (Project.mk 1 Status.pendingQuote none 0 none none false false 0).status,
             to_status := Status.quoted, change_reason := some "状态流转", notes := none,
             created_at := 5 }])
    ∧ (∀ (q : Project) (o o' : Status) (t1 t2 : Nat),
        (handleStatusSideEffects (handleStatusSideEffects q o Status.quoted t1).1 o'
            Status.quoted t2).1 =
          (handleStatusSideEffects q o Status.quoted t1).1)) :=
  ⟨by decide, by decide,
   smartStatusTransition_success
     { projects := [{ id := 1, status := Status.pendingQuote }] }
     1 Status.quoted ⟨2, Role.sales, false⟩ none 5
     (Project.mk 1 Status.pendingQuote none 0 none none false false 0)
     (by decide) (by decide)⟩

/-! ## Workflow engine: rules, trigger matching -/

/-- `TriggerType` from `workflow_service.py`. -/
inductive TriggerType
  | timeBased
  | statusChange
  | dataCondition
  | manual
  deriving DecidableEq

/-- `ActionType` from `workflow_service.py`. -/
inductive ActionType
  | sendNotification
  | updateStatus
  | createTask
  | assignUser
  | runAIAnalysis
  | customFunction
  deriving DecidableEq

/-- A value stored in a `trigger_conditions` dict: the repository's rules use
status strings and booleans. -/
inductive CondValue
  | st (s : Status)
  | bl (b : Bool)
  deriving DecidableEq

/-- Python truthiness of a condition value (`if expected_value:`): all status
strings are non-empty, hence truthy; a boolean is its own truth value. -/
def truthyCond : CondValue → Bool
  | .st _ => true
  | .bl b => b

/-- Python truthiness of a nullable integer (`if project_id:` /
`if project.designer_id:`): `None` and `0` are falsy. -/
def truthyOptNat : Option Nat → Bool
  | none => false
  | some n => n != 0

/-- The `trigger_data` payload dict built by the engine's callers
(`process_project_status_change` puts `project_id`, `old_status`,
`new_status`, `operator_id` in it); a missing key reads as `None`. -/
structure TriggerData where
  project_id : Option Nat := none
  old_status : Option Status := none
  new_status : Option Status := none
  operator_id : Option Nat := none
  deriving DecidableEq

/-- The parameter bag of one action dict in `rule.actions`.  `atype := none`
models an action whose `"type"` string is not a member of `ActionType`
(`ActionType(action["type"])` raises in that case).  The remaining fields
mirror `action.get(...)` lookups with their Python defaults. -/
structure ActionSpec where
  atype : Option ActionType
  template : Option String := none
  recipients : List String := []
  target_status : Option Status := none
  delay_hours : Nat := 0
  task_template : Option String := none
  role : Option Role := none
  strategy : Option String := none
  analysis_type : Option String := none
  fname : Option String := none
  deriving DecidableEq

/-- `WorkflowRule` dataclass. -/
structure WorkflowRule where
  id : String
  name : String
  description : String := ""
  trigger_type : TriggerType
  trigger_conditions : List (String × CondValue) := []
  actions : List ActionSpec := []
  is_active : Bool := true
  priority : Int := 1
  deriving DecidableEq

/-- `WorkflowEngine.register_rule`: `self.rules.append(rule)`. -/
def registerRule (rules : List WorkflowRule) (r : WorkflowRule) : List WorkflowRule :=
  rules ++ [r]

/-- Python `trigger_data.get("new_status") != expected_value` (negated): a
status payload field equals the expected condition value only when both are
the same status string; `None` or a boolean expected value never matches. -/
def optStatusMatches (o : Option Status) (v : CondValue) : Bool :=
  match v, o with
  | .st s, some s2 => s2 == s
  | _, _ => false

/-- The `designer_not_assigned` branch of `_check_trigger_conditions`: the
loop returns `False` only when the expected value is truthy, the payload has
a truthy `project_id`, the project row exists and its `designer_id` is
truthy; in every other situation the loop keeps going (condition holds). -/
def designerNotAssignedHolds (db : DBState) (data : TriggerData) (v : CondValue) : Bool :=
  if truthyCond v then
    match data.project_id with
    | some pid =>
      if pid != 0 then
        match findProject db pid with
        | some p => !(truthyOptNat p.designer_id)
        | none => true
      else true
    | none => true
  else true

/-- `WorkflowEngine._check_trigger_conditions`: iterate the condition dict,
returning `False` at the first recognized key whose check fails; keys other
than `new_status` / `old_status` / `designer_not_assigned` fall through the
`if`/`elif` chain and never fail. -/
def checkTriggerConditions (db : DBState) (conds : List (String × CondValue))
    (data : TriggerData) : Bool :=
  match conds with
  | [] => true
  | (k, v) :: rest =>
    if k == "new_status" then
      if optStatusMatches data.new_status v then checkTriggerConditions db rest data
      else false
    else if k == "old_status" then
      if optStatusMatches data.old_status v then checkTriggerConditions db rest data
      else false
    else if k == "designer_not_assigned" then
      if designerNotAssignedHolds db data v then checkTriggerConditions db rest data
      else false
    else checkTriggerConditions db rest data

/-- The per-condition predicate that `_check_trigger_conditions` conjoins. -/
def condSat (db : DBState) (data : TriggerData) (kv : String × CondValue) : Bool :=
  if kv.1 == "new_status" then optStatusMatches data.new_status kv.2
  else if kv.1 == "old_status" then optStatusMatches data.old_status kv.2
  else if kv.1 == "designer_not_assigned" then designerNotAssignedHolds db data kv.2
  else true

/-- `WorkflowEngine._find_matching_rules`: keep the active rules of the
event's trigger type whose conditions all hold. -/
def findMatchingRules (db : DBState) (rules : List WorkflowRule) (t : TriggerType)
    (data : TriggerData) : List WorkflowRule :=
  rules.filter (fun r =>
    r.is_active && decide (r.trigger_type = t) &&
      checkTriggerConditions db r.trigger_conditions data)

/-- The condition loop is the conjunction of its per-key checks. -/
theorem checkTriggerConditions_eq_all (db : DBState) (data : TriggerData) :
    ∀ conds : List (String × CondValue),
      checkTriggerConditions db conds data = conds.all (condSat db data)
  | [] => rfl
  | (k, v) :: rest => by
    have ih := checkTriggerConditions_eq_all db data rest
    by_cases h1 : k == "new_status"
    · by_cases h2 : optStatusMatches data.new_status v <;>
        simp [checkTriggerConditions, condSat, h1, h2, ih]
    · by_cases h2 : k == "old_status"
      · by_cases h3 : optStatusMatches data.old_status v <;>
          simp [checkTriggerConditions, condSat, h1, h2, h3, ih]
      · by_cases h3 : k == "designer_not_assigned"
        · by_cases h4 : designerNotAssignedHolds db data v <;>
            simp [checkTriggerConditions, condSat, h1, h2, h3, h4, ih]
        · simp [checkTriggerConditions, condSat, h1, h2, h3, ih]

/-- C3 counterexample: `register_rule` appends unconditionally, so
registering two rules with the same id leaves two rules under that id in the
registry, not one. -/
theorem registerRule_same_id_counterexample :
    ¬ (((registerRule (registerRule []
          { id := "r", name := "a", trigger_type := TriggerType.statusChange })
          { id := "r", name := "b", trigger_type := TriggerType.statusChange }).filter
            (fun q => q.id == "r")).length = 1) := by
  decide

/-- C3 as amended: registration is a plain append; re-registering an id keeps
both rules (the earlier one first), and the rule just registered is read back
as the last registry entry, equal in every field (no merging). -/
theorem registerRule_append_roundTrip (rules : List WorkflowRule) (r r2 : WorkflowRule)
    (hid : r.id = r2.id) :
    registerRule (registerRule rules r) r2 = rules ++ [r, r2]
    ∧ (registerRule rules r).getLast? = some r := by
  constructor
  · simp [registerRule]
  · simp [registerRule]

/-- Witness for the amended C3 at concrete rules sharing the id `"r"`. -/
theorem registerRule_append_roundTrip_witness :
    ((WorkflowRule.mk "r" "a" "" TriggerType.statusChange [] [] true 1).id =
      (WorkflowRule.mk "r" "b" "" TriggerType.statusChange [] [] true 5).id) ∧
    (registerRule (registerRule []
        (WorkflowRule.mk "r" "a" "" TriggerType.statusChange [] [] true 1))
        (WorkflowRule.mk "r" "b" "" TriggerType.statusChange [] [] true 5) =
      [] ++ [WorkflowRule.mk "r" "a" "" TriggerType.statusChange [] [] true 1,
             WorkflowRule.mk "r" "b" "" TriggerType.statusChange [] [] true 5]
    ∧ (registerRule []
        (WorkflowRule.mk "r" "a" "" TriggerType.statusChange [] [] true 1)).getLast? =
      some (WorkflowRule.mk "r" "a" "" TriggerType.statusChange [] [] true 1)) :=
  ⟨by decide,
   registerRule_append_roundTrip []
     (WorkflowRule.mk "r" "a" "" TriggerType.statusChange [] [] true 1)
     (WorkflowRule.mk "r" "b" "" TriggerType.statusChange [] [] true 5) (by decide)⟩

/-- C4: dispatch selects exactly the registered rules that are active, have
the event's trigger type, and whose conditions all hold; the condition check
is the conjunction of per-key checks; an unrecognized condition key never
excludes a rule. -/
theorem findMatchingRules_characterization (db : DBState) (rules : List WorkflowRule)
    (t : TriggerType) (data : TriggerData) :
    (∀ r : WorkflowRule, r ∈ findMatchingRules db rules t data ↔
      (r ∈ rules ∧ r.is_active = true ∧ r.trigger_type = t ∧
        checkTriggerConditions db r.trigger_conditions data = true))
    ∧ (∀ conds : List (String × CondValue),
        checkTriggerConditions db conds data = conds.all (condSat db data))
    ∧ (∀ (k : String) (v : CondValue) (pre post : List (String × CondValue)),
        k ≠ "new_status" → k ≠ "old_status" → k ≠ "designer_not_assigned" →
        checkTriggerConditions db (pre ++ (k, v) :: post) data =
          checkTriggerConditions db (pre ++ post) data) := by
  refine ⟨?_, checkTriggerConditions_eq_all db data, ?_⟩
  · intro r
    simp [findMatchingRules, List.mem_filter, and_assoc]
  · intro k v pre post h1 h2 h3
    rw [checkTriggerConditions_eq_all, checkTriggerConditions_eq_all]
    simp [List.all_append, condSat, h1, h2, h3]

/-- Witness for C4 at a concrete unknown condition key. -/
theorem findMatchingRules_characterization_witness :
    (("custom_key" : String) ≠ "new_status") ∧
    (checkTriggerConditions {} ([] ++ ("custom_key", CondValue.bl true) :: []) {} =
      checkTriggerConditions {} ([] ++ []) {}) :=
  ⟨by decide,
   (findMatchingRules_characterization {} [] TriggerType.statusChange {}).2.2
     "custom_key" (CondValue.bl true) [] [] (by decide) (by decide) (by decide)⟩

/-- C10: under a truthy expected value, the `designer_not_assigned` condition
excludes a rule exactly when the payload carries a truthy `project_id`, that
project exists, and its `designer_id` is truthy; a missing `project_id` or a
missing project leaves the condition satisfied. -/
theorem designerNotAssigned_characterization (db : DBState) (data : TriggerData)
    (v : CondValue) (hv : truthyCond v = true) :
    (checkTriggerConditions db [("designer_not_assigned", v)] data =
      designerNotAssignedHolds db data v)
    ∧ (designerNotAssignedHolds db data v = false ↔
        ∃ pid p, data.project_id = some pid ∧ pid ≠ 0 ∧ findProject db pid = some p ∧
          truthyOptNat p.designer_id = true)
    ∧ (data.project_id = none → designerNotAssignedHolds db data v = true)
    ∧ (∀ pid : Nat, data.project_id = some pid → findProject db pid = none →
        designerNotAssignedHolds db data v = true) := by
  refine ⟨?_, ?_, ?_, ?_⟩
  · by_cases h : designerNotAssignedHolds db data v = true <;>
      simp [checkTriggerConditions, h]
  · unfold designerNotAssignedHolds
    rw [hv]
    cases hd : data.project_id with
    | none => simp
    | some pid =>
      by_cases hz : pid = 0
      · simp [hz]
      · cases hf : findProject db pid with
        | none => simp [hz, hf]
        | some p =>
          by_cases ht : truthyOptNat p.designer_id = true <;>
            simp [hz, hf, ht]
  · intro hd
    simp [designerNotAssignedHolds, hv, hd]
  · intro pid hd hf
    by_cases hz : pid = 0 <;>
      simp [designerNotAssignedHolds, hv, hd, hf, hz]

/-- Witness for C10: project 1 has designer 9 assigned, so the condition with
a truthy expected value excludes the rule for a payload naming project 1. -/
theorem designerNotAssigned_characterization_witness :
    (truthyCond (CondValue.bl true) = true) ∧
    ((checkTriggerConditions
        { projects := [{ id := 1, status := Status.pendingQuote, designer_id := some 9 }] }
        [("designer_not_assigned", CondValue.bl true)]
        { project_id := some 1 } =
      designerNotAssignedHolds
        { projects := [{ id := 1, status := Status.pendingQuote, designer_id := some 9 }] }
        { project_id := some 1 } (CondValue.bl true))
    ∧ (designerNotAssignedHolds
        { projects := [{ id := 1, status := Status.pendingQuote, designer_id := some 9 }] }
        { project_id := some 1 } (CondValue.bl true) = false ↔
        ∃ pid p, ({ project_id := some 1 } : TriggerData).project_id = some pid ∧ pid ≠ 0 ∧
          findProject
            { projects := [{ id := 1, status := Status.pendingQuote, designer_id := some 9 }] }
            pid = some p ∧
          truthyOptNat p.designer_id = true)
    ∧ (({ project_id := some 1 } : TriggerData).project_id = none →
        designerNotAssignedHolds
          { projects := [{ id := 1, status := Status.pendingQuote, designer_id := some 9 }] }
          { project_id := some 1 } (CondValue.bl true) = true)
    ∧ (∀ pid : Nat, ({ project_id := some 1 } : TriggerData).project_id = some pid →
        findProject
          { projects := [{ id := 1, status := Status.pendingQuote, designer_id := some 9 }] }
          pid = none →
        designerNotAssignedHolds
          { projects := [{ id := 1, status := Status.pendingQuote, designer_id := some 9 }] }
          { project_id := some 1 } (CondValue.bl true) = true)) :=
  ⟨by decide,
   designerNotAssigned_characterization
     { projects := [{ id := 1, status := Status.pendingQuote, designer_id := some 9 }] }
     { project_id := some 1 } (CondValue.bl true) (by decide)⟩

/-! ## Dispatch ordering and rule execution -/

/-- The comparison used by `matching_rules.sort(key=lambda x: x.priority,
reverse=True)`: descending priority.  Python's sort is stable; `mergeSort`
with this comparison is the same stable descending sort. -/
def ruleLE (a b : WorkflowRule) : Bool :=
  decide (b.priority ≤ a.priority)

/-- The execution order of matched rules inside `trigger_workflow`. -/
def execSort (l : List WorkflowRule) : List WorkflowRule :=
  l.mergeSort ruleLE

theorem ruleLE_trans : ∀ a b c : WorkflowRule, ruleLE a b → ruleLE b c → ruleLE a c := by
  intro a b c h1 h2
  simp only [ruleLE, decide_eq_true_iff] at *
  exact le_trans h2 h1

theorem ruleLE_total : ∀ a b : WorkflowRule, ruleLE a b || ruleLE b a := by
  intro a b
  simp only [ruleLE, Bool.or_eq_true, decide_eq_true_iff]
  exact Int.le_total b.priority a.priority

/-- One scheduled unit of work for the trace: the rule id together with the
position of the action in that rule's action list. -/
def ruleActionEvents (r : WorkflowRule) : List (String × Nat) :=
  (List.range r.actions.length).map (fun i => (r.id, i))

/-- The sequential action trace of one dispatch: `trigger_workflow` runs the
sorted matched rules one after the other, and `_execute_rule` runs each
rule's actions in list order. -/
def dispatchTrace (db : DBState) (rules : List WorkflowRule) (t : TriggerType)
    (data : TriggerData) : List (String × Nat) :=
  (execSort (findMatchingRules db rules t data)).flatMap ruleActionEvents

/-- C5: the executed order is a permutation of the matched rules, sorted by
descending priority, ties keeping registration order; and in the sequential
trace all actions of a strictly higher-priority matched rule come before all
actions of a lower-priority one. -/
theorem dispatch_priority_order (db : DBState) (rules : List WorkflowRule)
    (t : TriggerType) (data : TriggerData) :
    (List.Perm (execSort (findMatchingRules db rules t data))
      (findMatchingRules db rules t data))
    ∧ (execSort (findMatchingRules db rules t data)).Pairwise
        (fun a b => b.priority ≤ a.priority)
    ∧ (∀ a b : WorkflowRule, a.priority = b.priority →
        List.Sublist [a, b] (findMatchingRules db rules t data) →
        List.Sublist [a, b] (execSort (findMatchingRules db rules t data)))
    ∧ (∀ a b : WorkflowRule, a ∈ findMatchingRules db rules t data →
        b ∈ findMatchingRules db rules t data → b.priority < a.priority →
        ∃ u v w, dispatchTrace db rules t data =
          u ++ ruleActionEvents a ++ v ++ ruleActionEvents b ++ w) := by
  have hperm := List.mergeSort_perm (findMatchingRules db rules t data) ruleLE
  have hsorted := @List.sorted_mergeSort _ ruleLE ruleLE_trans ruleLE_total
    (findMatchingRules db rules t data)
  have hpw : (execSort (findMatchingRules db rules t data)).Pairwise
      (fun a b => b.priority ≤ a.priority) := by
    refine List.Pairwise.imp ?_ hsorted
    intro a b h
    simpa [ruleLE, decide_eq_true_iff] using h
  refine ⟨hperm, hpw, ?_, ?_⟩
  · intro a b hpr hsub
    exact List.pair_sublist_mergeSort ruleLE_trans ruleLE_total
      (by simp [ruleLE, hpr]) hsub
  · intro a b ha hb hlt
    have haS : a ∈ execSort (findMatchingRules db rules t data) := hperm.mem_iff.mpr ha
    obtain ⟨u1, v1, h1⟩ := List.append_of_mem haS
    have hbS : b ∈ execSort (findMatchingRules db rules t data) := hperm.mem_iff.mpr hb
    have hbv : b ∈ v1 := by
      rw [h1] at hbS
      rcases List.mem_append.mp hbS with hbu | hbc
      · exfalso
        rw [h1] at hpw
        have := (List.pairwise_append.mp hpw).2.2 b hbu a (List.mem_cons_self a v1)
        omega
      · rcases List.mem_cons.mp hbc with hba | hbv
        · exfalso; rw [hba] at hlt; omega
        · exact hbv
    obtain ⟨v2, v3, h2⟩ := List.append_of_mem hbv
    refine ⟨u1.flatMap ruleActionEvents, v2.flatMap ruleActionEvents,
      v3.flatMap ruleActionEvents, ?_⟩
    rw [dispatchTrace, h1, h2]
    simp [List.flatMap_append, List.append_assoc]

/-- A sample matched rule of priority 10 with two actions. -/
def ruleP10 : WorkflowRule :=
  { id := "p10", name := "ten", trigger_type := TriggerType.statusChange,
    actions := [{ atype := some ActionType.createTask },
                { atype := some ActionType.sendNotification }],
    priority := 10 }

/-- A sample matched rule of priority 5 with one action. -/
def ruleP5 : WorkflowRule :=
  { id := "p5", name := "five", trigger_type := TriggerType.statusChange,
    actions := [{ atype := some ActionType.customFunction }],
    priority := 5 }

/-- Witness for C5: with two matched rules of priorities 10 and 5, every
action of the priority-10 rule appears in the dispatch trace before any
action of the priority-5 rule. -/
theorem dispatch_priority_order_witness :
    (ruleP10 ∈ findMatchingRules {} [ruleP10, ruleP5] TriggerType.statusChange {}) ∧
    (ruleP5 ∈ findMatchingRules {} [ruleP10, ruleP5] TriggerType.statusChange {}) ∧
    (ruleP5.priority < ruleP10.priority) ∧
    (∃ u v w, dispatchTrace {} [ruleP10, ruleP5] TriggerType.statusChange {} =
      u ++ ruleActionEvents ruleP10 ++ v ++ ruleActionEvents ruleP5 ++ w) :=
  ⟨by decide, by decide, by decide,
   (dispatch_priority_order {} [ruleP10, ruleP5] TriggerType.statusChange {}).2.2.2
     ruleP10 ruleP5 (by decide) (by decide) (by decide)⟩

/-- The record `_execute_rule` appends for one action: the handler's returned
value, or the string of the exception it raised (caught per action). -/
inductive ActionRecord
  | ok (v : String)
  | err (e : String)
  deriving DecidableEq

/-- The per-rule entry `trigger_workflow` appends to its `results` list. -/
inductive RuleOutcome
  | ok (records : List ActionRecord)
  | err (e : String)
  deriving DecidableEq

/-- One element of the list returned by `trigger_workflow`. -/
structure RuleRecord where
  rule_id : String
  rule_name : String
  success : Bool
  outcome : RuleOutcome
  deriving DecidableEq

/-- The action loop of `WorkflowEngine._execute_rule`.  The handlers perform
external calls (gateways, database); their results are supplied by the
`outcome` environment mapping (rule id, action position) to the handler's
return value or raised exception.  `ActionType(action["type"])` is evaluated
outside the per-action `try`, so an unrecognized action type aborts the whole
rule; a handler exception is caught, recorded, and the loop continues. -/
def executeRuleAux (outcome : String → Nat → Except String String) (rid : String) :
    List ActionSpec → Nat → Except String (List ActionRecord)
  | [], _ => .ok []
  | a :: rest, i =>
    match a.atype with
    | none => .error "unknown action type"
    | some _ =>
      let r1 : ActionRecord :=
        match outcome rid i with
        | .ok v => .ok v
        | .error e => .err e
      match executeRuleAux outcome rid rest (i + 1) with
      | .ok rs => .ok (r1 :: rs)
      | .error e => .error e

/-- `WorkflowEngine._execute_rule` on one rule. -/
def executeRule (outcome : String → Nat → Except String String) (r : WorkflowRule) :
    Except String (List ActionRecord) :=
  executeRuleAux outcome r.id r.actions 0

/-- `WorkflowEngine.trigger_workflow`: match, sort, then run each rule inside
a per-rule `try`/`except` that turns an escaped exception into a failure
record; one record is appended per matched rule and the loop never raises. -/
def triggerWorkflow (db : DBState) (rules : List WorkflowRule) (t : TriggerType)
    (data : TriggerData) (outcome : String → Nat → Except String String) :
    List RuleRecord :=
  (execSort (findMatchingRules db rules t data)).map (fun r =>
    match executeRule outcome r with
    | .ok rs => { rule_id := r.id, rule_name := r.name, success := true,
                  outcome := RuleOutcome.ok rs }
    | .error e => { rule_id := r.id, rule_name := r.name, success := false,
                    outcome := RuleOutcome.err e })

/-- When every action of the list has a recognized type, the action loop
returns one record per action, each determined by the handler environment —
in particular it keeps running after a handler exception. -/
theorem executeRuleAux_allKnown (outcome : String → Nat → Except String String)
    (rid : String) :
    ∀ (acts : List ActionSpec) (i : Nat), (∀ a ∈ acts, a.atype ≠ none) →
      ∃ rs, executeRuleAux outcome rid acts i = .ok rs ∧ rs.length = acts.length ∧
        ∀ j (hj : j < rs.length), rs.get ⟨j, hj⟩ =
          (match outcome rid (i + j) with
           | .ok v => ActionRecord.ok v
           | .error e => ActionRecord.err e)
  | [], i, _ => ⟨[], rfl, rfl, by intro j hj; exact absurd hj (by simp)⟩
  | a :: rest, i, hk => by
    obtain ⟨t1, ht1⟩ := Option.ne_none_iff_exists.mp (hk a (List.mem_cons_self a rest))
    obtain ⟨rs, hrs, hlen, hidx⟩ :=
      executeRuleAux_allKnown outcome rid rest (i + 1)
        (fun a2 h2 => hk a2 (List.mem_cons_of_mem a h2))
    refine ⟨(match outcome rid i with
             | .ok v => ActionRecord.ok v
             | .error e => ActionRecord.err e) :: rs, ?_, by simp [hlen], ?_⟩
    · simp only [executeRuleAux, ← ht1, hrs]
    · intro j hj
      cases j with
      | zero => simp
      | succ j2 =>
        have hj2 : j2 < rs.length := by simpa using hj
        have := hidx j2 hj2
        simpa [Nat.add_comm, Nat.add_left_comm, Nat.add_assoc] using this

/-- C6: dispatch is total and isolates failures: it returns exactly one
record per matched rule, in execution order, each record determined by that
rule alone; and for a rule whose actions all have recognized types, every
action runs and is recorded even when an earlier handler raises (e.g. a
gateway failure on the first action). -/
theorem triggerWorkflow_isolation (db : DBState) (rules : List WorkflowRule)
    (t : TriggerType) (data : TriggerData)
    (outcome : String → Nat → Except String String) :
    ((triggerWorkflow db rules t data outcome).map (fun rec => rec.rule_id) =
      (execSort (findMatchingRules db rules t data)).map (fun r => r.id))
    ∧ ((triggerWorkflow db rules t data outcome).length =
        (execSort (findMatchingRules db rules t data)).length)
    ∧ (∀ k : Nat, (triggerWorkflow db rules t data outcome)[k]? =
        ((execSort (findMatchingRules db rules t data))[k]?).map (fun r =>
          match executeRule outcome r with
          | .ok rs => { rule_id := r.id, rule_name := r.name, success := true,
                        outcome := RuleOutcome.ok rs }
          | .error e => { rule_id := r.id, rule_name := r.name, success := false,
                          outcome := RuleOutcome.err e }))
    ∧ (∀ r, r ∈ execSort (findMatchingRules db rules t data) →
        (∀ a ∈ r.actions, a.atype ≠ none) →
        ∃ rs, executeRule outcome r = .ok rs ∧ rs.length = r.actions.length ∧
          ∀ j (hj : j < rs.length), rs.get ⟨j, hj⟩ =
            (match outcome r.id j with
             | .ok v => ActionRecord.ok v
             | .error e => ActionRecord.err e)) := by
  refine ⟨?_, ?_, ?_, ?_⟩
  · simp only [triggerWorkflow, List.map_map]
    refine List.map_congr_left ?_
    intro r hr
    cases hx : executeRule outcome r <;> simp [hx]
  · simp [triggerWorkflow]
  · intro k
    simp [triggerWorkflow, List.getElem?_map]
  · intro r hr hk
    obtain ⟨rs, hrs, hlen, hidx⟩ := executeRuleAux_allKnown outcome r.id r.actions 0 hk
    exact ⟨rs, hrs, hlen, fun j hj => by simpa using hidx j hj⟩

/-- A handler environment where the first action of rule `"p10"` raises a
gateway failure and every other action succeeds. -/
def gatewayOutcome : String → Nat → Except String String :=
  fun rid i => if rid == "p10" && i == 0 then .error "GatewayFailure" else .ok "done"

/-- Witness for C6: with the priority-10 rule's first action raising a
gateway failure, dispatch still reports a record for every matched rule and
the failing rule's remaining action still runs and is recorded. -/
theorem triggerWorkflow_isolation_witness :
    (gatewayOutcome "p10" 0 = .error "GatewayFailure") ∧
    (ruleP10 ∈ execSort (findMatchingRules {} [ruleP10, ruleP5] TriggerType.statusChange {})) ∧
    (∀ a ∈ ruleP10.actions, a.atype ≠ none) ∧
    ((triggerWorkflow {} [ruleP10, ruleP5] TriggerType.statusChange {} gatewayOutcome).map
        (fun rec => rec.rule_id) =
      (execSort (findMatchingRules {} [ruleP10, ruleP5] TriggerType.statusChange {})).map
        (fun r => r.id)) ∧
    (∃ rs, executeRule gatewayOutcome ruleP10 = .ok rs ∧
      rs.length = ruleP10.actions.length ∧
      ∀ j (hj : j < rs.length), rs.get ⟨j, hj⟩ =
        (match gatewayOutcome ruleP10.id j with
         | .ok v => ActionRecord.ok v
         | .error e => ActionRecord.err e)) := by
  have h := triggerWorkflow_isolation {} [ruleP10, ruleP5] TriggerType.statusChange {}
    gatewayOutcome
  have hmem : ruleP10 ∈ execSort
      (findMatchingRules {} [ruleP10, ruleP5] TriggerType.statusChange {}) :=
    (List.mergeSort_perm
      (findMatchingRules {} [ruleP10, ruleP5] TriggerType.statusChange {})
      ruleLE).mem_iff.mpr (by decide)
  exact ⟨rfl, hmem, by decide, h.1, h.2.2.2 ruleP10 hmem (by decide)⟩

/-! ## The status-writing side doors: workflow `update_status` action and the
status-update API handler -/

/-- Externally visible effects of `_handle_update_status` other than its
database writes.  `sleepSeconds` is `await asyncio.sleep(delay_hours * 3600)`
executed inside the dispatch call; `schedulerOneTimeJob` is what a deferred
status change registered through `TaskScheduler.add_one_time_job` would look
like — the constructor exists in the effect language so that its absence from
the handler's emitted effects is expressible. -/
inductive WfEffect
  | sleepSeconds (n : Nat)
  | schedulerOneTimeJob (job_id : String) (run_at : Nat)
  deriving DecidableEq

/-- `TaskScheduler`'s registered-job table (`scheduler.py`): job id and run
date of each one-time job. -/
structure SchedulerState where
  jobs : List (String × Nat) := []
  deriving DecidableEq

/-- `TaskScheduler.add_one_time_job` with `replace_existing=True`: any job
with the same id is replaced, and the new job is recorded. -/
def addOneTimeJob (s : SchedulerState) (job_id : String) (run_date : Nat) :
    SchedulerState :=
  { s with jobs := (s.jobs.filter (fun j => j.1 != job_id)) ++ [(job_id, run_date)] }

/-- Result of `_handle_update_status`: `none` models the `{"error": ...}`
dict returned when the context has no project, `some (old, new)` the normal
return payload. -/
def UpdateStatusResult := Option (Status × Status)

/-- `WorkflowEngine._handle_update_status`.  With a project in context it
reads `target_status` and `delay_hours`, sleeps in-process when the delay is
positive, then assigns `project.status` directly (no legality check against
the transition table), appends its own log row (`user_id = 0`, reason
`工作流自动更新`) and commits.  The scheduler is never touched.  The
`target_status = none` case (key absent) is not exercised by any registered
rule and is modelled as returning the error dict. -/
def handleUpdateStatus (a : ActionSpec) (ctxProject : Option Project) (db : DBState)
    (now : Nat) : Option Project × DBState × List WfEffect × Option (Status × Status) :=
  match ctxProject with
  | none => (none, db, [], none)
  | some p =>
    match a.target_status with
    | none => (some p, db, [], none)
    | some target =>
      let effs := if a.delay_hours > 0 then [WfEffect.sleepSeconds (a.delay_hours * 3600)]
                  else []
      let oldS := p.status
      let p1 := { p with status := target, updated_at := now }
      let log : StatusLog :=
        { project_id := p.id, user_id := 0, from_status := oldS, to_status := target,
          change_reason := some "工作流自动更新", notes := none, created_at := now }
      let db1 := updateProject db p1
      let db2 := { db1 with statusLogs := db1.statusLogs ++ [log] }
      (some p1, db2, effs, some (oldS, target))

/-- `update_project_status` in `backend/app/api/projects.py`.  The permission
gate (`check_permission` / `require_project_access`) is an external
collaborator consumed as a boolean capability, passed in as `allowed`.  Every
`Status` value is a member of the handler's `valid_statuses` list, so that
check never rejects.  The handler assigns `project.status` directly — no
transition-table check — sets `started_at` / `completed_at` (only those two
side effects, in an `elif` chain) and appends its own log row. -/
def apiUpdateProjectStatus (db : DBState) (pid : Nat) (newS : Status) (user : User)
    (change_reason notes : Option String) (now : Nat) (allowed : Bool) :
    DBState × Except String Project :=
  match findProject db pid with
  | none => (db, .error "项目不存在")
  | some p =>
    if !allowed then (db, .error "无权限操作此项目") else
    let oldS := p.status
    let p1 := { p with status := newS, updated_at := now }
    let p2 := if newS = Status.inDesign ∧ p1.started_at = none then
                { p1 with started_at := some now }
              else if newS = Status.completed ∧ p1.completed_at = none then
                { p1 with completed_at := some now }
              else p1
    let log : StatusLog :=
      { project_id := pid, user_id := user.id, from_status := oldS, to_status := newS,
        change_reason := change_reason, notes := notes, created_at := now }
    let db1 := updateProject db p2
    let db2 := { db1 with statusLogs := db1.statusLogs ++ [log] }
    (db2, .ok p2)

/-- C7 counterexample: a project at `pendingQuote` is moved to `completed` —
a transition the legality check rejects for a non-privileged actor — by both
the workflow `update_status` action and the API status handler, with no
error: neither path goes through the checked transition path. -/
theorem statusWrite_side_door_counterexample :
    (Status.completed ∉ validTransitions Status.pendingQuote)
    ∧ (validateStatusTransition Status.pendingQuote Status.completed ⟨2, Role.sales, false⟩ =
        .error (.illegalTransition Status.pendingQuote Status.completed))
    ∧ ((handleUpdateStatus
          { atype := some ActionType.updateStatus, target_status := some Status.completed }
          (some { id := 1, status := Status.pendingQuote }) {} 7).2.2.2 =
        some (Status.pendingQuote, Status.completed))
    ∧ ((handleUpdateStatus
          { atype := some ActionType.updateStatus, target_status := some Status.completed }
          (some { id := 1, status := Status.pendingQuote }) {} 7).1 =
        some { id := 1, status := Status.completed, updated_at := 7 })
    ∧ ((apiUpdateProjectStatus { projects := [{ id := 1, status := Status.pendingQuote }] }
          1 Status.completed ⟨2, Role.sales, false⟩ none none 7 true).2 =
        .ok { id := 1, status := Status.completed, updated_at := 7,
              completed_at := some 7 }) := by
  decide

/-- C7 as amended: only `smart_status_transition` consults the transition
table.  The workflow `update_status` action and the API status handler each
assign `project.status` directly, for any target status whatsoever, and each
appends its own status-change log row. -/
theorem statusWrite_paths (a : ActionSpec) (target : Status) (p : Project) (db : DBState)
    (now : Nat) (ht : a.target_status = some target) :
    ((handleUpdateStatus a (some p) db now).1 =
      some { p with status := target, updated_at := now })
    ∧ ((handleUpdateStatus a (some p) db now).2.2.2 = some (p.status, target))
    ∧ ((handleUpdateStatus a (some p) db now).2.1.statusLogs = db.statusLogs ++
        [{ project_id := p.id, user_id := 0, from_status := p.status, to_status := target,
           change_reason := some "工作流自动更新", notes := none, created_at := now }])
    ∧ (∀ (db2 : DBState) (pid : Nat) (newS : Status) (user : User)
        (cr nts : Option String) (now2 : Nat) (p2 : Project),
        findProject db2 pid = some p2 →
        ∃ q, (apiUpdateProjectStatus db2 pid newS user cr nts now2 true).2 = .ok q ∧
          q.status = newS ∧
          (apiUpdateProjectStatus db2 pid newS user cr nts now2 true).1.statusLogs =
            db2.statusLogs ++
              [{ project_id := pid, user_id := user.id, from_status := p2.status,
                 to_status := newS, change_reason := cr, notes := nts,
                 created_at := now2 }]) := by
  refine ⟨?_, ?_, ?_, ?_⟩
  · simp [handleUpdateStatus, ht]
  · simp [handleUpdateStatus, ht]
  · simp [handleUpdateStatus, ht, updateProject]
  · intro db2 pid newS user cr nts now2 p2 hfind
    by_cases h1 : newS = Status.inDesign ∧ p2.started_at = none
    · obtain ⟨hn, hs⟩ := h1
      subst hn
      refine ⟨{ p2 with status := Status.inDesign, updated_at := now2, started_at := some now2 },
        ?_, ?_, ?_⟩ <;>
        simp [apiUpdateProjectStatus, hfind, hs, updateProject]
    · by_cases h2 : newS = Status.completed ∧ p2.completed_at = none
      · obtain ⟨hn, hs⟩ := h2
        subst hn
        refine ⟨{ p2 with status := Status.completed, updated_at := now2, completed_at := some now2 },
          ?_, ?_, ?_⟩ <;>
          simp [apiUpdateProjectStatus, hfind, h1, hs, updateProject]
      · refine ⟨{ p2 with status := newS, updated_at := now2 }, ?_, ?_, ?_⟩ <;>
          simp [apiUpdateProjectStatus, hfind, h1, h2, updateProject]

/-- Witness for the amended C7 at a concrete input. -/
theorem statusWrite_paths_witness :
    ((ActionSpec.mk (some ActionType.updateStatus) none [] (some Status.completed)
        0 none none none none none).target_status = some Status.completed) ∧
    (((handleUpdateStatus
        (ActionSpec.mk (some ActionType.updateStatus) none [] (some Status.completed)
          0 none none none none none)
        (some { id := 1, status := Status.pendingQuote }) {} 7).1 =
      some { (Project.mk 1 Status.pendingQuote none 0 none none false false 0) with
               status := Status.completed, updated_at := 7 })
    ∧ ((handleUpdateStatus
        (ActionSpec.mk (some ActionType.updateStatus) none [] (some Status.completed)
          0 none none none none none)
        (some { id := 1, status := Status.pendingQuote }) {} 7).2.2.2 =
      some ((Project.mk 1 Status.pendingQuote none 0 none none false false 0).status,
        Status.completed))
    ∧ ((handleUpdateStatus
        (ActionSpec.mk (some ActionType.updateStatus) none [] (some Status.completed)
          0 none none none none none)
        (some { id := 1, status := Status.pendingQuote }) {} 7).2.1.statusLogs =
      ({} : DBState).statusLogs ++
        [{ project_id := (Project.mk 1 Status.pendingQuote none 0 none none false false 0).id,
           user_id := 0,
           from_status := (Project.mk 1 Status.pendingQuote none 0 none none false false 0).status,
           to_status := Status.completed, change_reason := some "工作流自动更新",
           notes := none, created_at := 7 }])
    ∧ (∀ (db2 : DBState) (pid : Nat) (newS : Status) (user : User)
        (cr nts : Option String) (now2 : Nat) (p2 : Project),
        findProject db2 pid = some p2 →
        ∃ q, (apiUpdateProjectStatus db2 pid newS user cr nts now2 true).2 = .ok q ∧
          q.status = newS ∧
          (apiUpdateProjectStatus db2 pid newS user cr nts now2 true).1.statusLogs =
            db2.statusLogs ++
              [{ project_id := pid, user_id := user.id, from_status := p2.status,
                 to_status := newS, change_reason := cr, notes := nts,
                 created_at := now2 }])) :=
  ⟨rfl,
   statusWrite_paths
     (ActionSpec.mk (some ActionType.updateStatus) none [] (some Status.completed)
       0 none none none none none)
     Status.completed (Project.mk 1 Status.pendingQuote none 0 none none false false 0)
     {} 7 rfl⟩

/-- C8, evaluated at the failing input: an `update_status` action with
`delay_hours = 1` makes the handler sleep 3600 seconds in-process inside the
dispatch call, and no one-time scheduler job is registered for the deferred
change. -/
theorem handleUpdateStatus_sleeps_in_process :
    ((handleUpdateStatus
        { atype := some ActionType.updateStatus, target_status := some Status.inDesign,
          delay_hours := 1 }
        (some { id := 1, status := Status.depositPaid }) {} 7).2.2.1 =
      [WfEffect.sleepSeconds 3600])
    ∧ (∀ (j : String) (t2 : Nat), WfEffect.schedulerOneTimeJob j t2 ∉
        (handleUpdateStatus
          { atype := some ActionType.updateStatus, target_status := some Status.inDesign,
            delay_hours := 1 }
          (some { id := 1, status := Status.depositPaid }) {} 7).2.2.1) := by
  constructor
  · rfl
  · intro j t2 hmem
    simp [handleUpdateStatus] at hmem

/-! ## AssignUser with the least-workload strategy -/

/-- `_handle_assign_user`'s workload query: number of projects whose
`designer_id` is this user and whose status is `in_design` or
`pending_approval`. -/
def activeProjectCount (db : DBState) (uid : Nat) : Nat :=
  (db.projects.filter (fun p => p.designer_id == some uid &&
    (p.status == Status.inDesign || p.status == Status.pendingApproval))).length

/-- `db.query(User).filter(User.role == RoleEnum.DESIGNER).all()`. -/
def designersOf (db : DBState) : List User :=
  db.users.filter (fun u => u.role == Role.designer)

/-- First-minimum selection: the element kept by a left fold that replaces
the current best only on strictly smaller cost. -/
def pickMin {α : Type} (c : α → Nat) (d : α) (l : List α) : α :=
  l.foldl (fun best e => if c e < c best then e else best) d

/-- `min(designer_workload.keys(), key=...)` over the per-designer workload
dict, then `next(d for d in designers if d.id == best_designer_id)`: the dict
iterates in first-seen (query) order and Python's `min` returns the first
key attaining the minimum, which is the first-minimum fold over the query
result. -/
def selectLeastWorkload (designers : List User) (cost : Nat → Nat) : Option User :=
  match designers with
  | [] => none
  | d :: rest => some (pickMin (fun u => cost u.id) d rest)

/-- `WorkflowEngine._handle_assign_user`: for the designer role with the
`least_workload` strategy, query the designers, pick the one with the fewest
active projects (first-seen on ties), write the assignment back to the
context project and commit. -/
def handleAssignUser (a : ActionSpec) (ctxProject : Option Project) (db : DBState)
    (now : Nat) : Option Project × DBState × Option Nat :=
  match ctxProject with
  | none => (none, db, none)
  | some p =>
    if a.role == some Role.designer && a.strategy == some "least_workload" then
      match selectLeastWorkload (designersOf db) (activeProjectCount db) with
      | none => (some p, db, none)
      | some best =>
        let p1 := { p with designer_id := some best.id, updated_at := now }
        (some p1, updateProject db p1, some best.id)
    else (some p, db, none)

/-- The first-minimum fold returns a globally minimal element, and every
element strictly before it in the list has strictly larger cost. -/
theorem pickMin_spec {α : Type} (c : α → Nat) :
    ∀ (l : List α) (d : α),
      (∀ x ∈ d :: l, c (pickMin c d l) ≤ c x)
      ∧ ∃ pre suf, d :: l = pre ++ pickMin c d l :: suf ∧
          ∀ x ∈ pre, c (pickMin c d l) < c x := by
  intro l
  induction l with
  | nil =>
    intro d
    refine ⟨?_, [], [], rfl, by simp⟩
    intro x hx
    simp at hx
    simp [pickMin, hx]
  | cons e l2 ih =>
    intro d
    have hfold : pickMin c d (e :: l2) = pickMin c (if c e < c d then e else d) l2 := rfl
    obtain ⟨ihmin, pre2, suf2, ihdec, ihpre⟩ := ih (if c e < c d then e else d)
    have hminfd : c (pickMin c (if c e < c d then e else d) l2) ≤
        c (if c e < c d then e else d) :=
      ihmin _ (List.mem_cons_self _ _)
    constructor
    · intro x hx
      rw [hfold]
      rcases List.mem_cons.mp hx with hxd | hx2
      · rw [hxd]
        refine le_trans hminfd ?_
        by_cases hc : c e < c d <;> simp [hc]
        omega
      · rcases List.mem_cons.mp hx2 with hxe | hx3
        · rw [hxe]
          refine le_trans hminfd ?_
          by_cases hc : c e < c d <;> simp [hc]
          omega
        · exact ihmin x (List.mem_cons_of_mem _ hx3)
    · rw [hfold]
      by_cases hc : c e < c d
      · rw [if_pos hc] at ihdec ihpre hminfd ⊢
        refine ⟨d :: pre2, suf2, ?_, ?_⟩
        · rw [List.cons_append, ← ihdec]
        · intro x hx
          rcases List.mem_cons.mp hx with hxd | hxp
          · subst hxd
            omega
          · exact ihpre x hxp
      · rw [if_neg hc] at ihdec ihpre hminfd ⊢
        match pre2, ihdec with
        | [], ihdec =>
          have hd : pickMin c d l2 = d := by
            have := (List.cons.injEq d l2 (pickMin c d l2) suf2).mp (by simpa using ihdec)
            exact this.1.symm
          refine ⟨[], e :: l2, ?_, by simp⟩
          simp [hd]
        | a :: pre3, ihdec =>
          have hinj := (List.cons.injEq d l2 a (pre3 ++ pickMin c d l2 :: suf2)).mp
            (by simpa using ihdec)
          have hda : a = d := hinj.1.symm
          have hl2 : l2 = pre3 ++ pickMin c d l2 :: suf2 := hinj.2
          have hrd : c (pickMin c d l2) < c d := by
            have := ihpre a (List.mem_cons_self a pre3)
            rw [hda] at this
            exact this
          refine ⟨d :: e :: pre3, suf2, ?_, ?_⟩
          · rw [List.cons_append, List.cons_append, ← hl2]
          · intro x hx
            rcases List.mem_cons.mp hx with hxd | hx2
            · subst hxd; exact hrd
            · rcases List.mem_cons.mp hx2 with hxe | hx3
              · rw [hxe]; omega
              · exact ihpre x (List.mem_cons_of_mem a hx3)

/-- C9: for a non-empty designer pool, the `least_workload` assignment picks
a designer whose active-project count is globally minimal, with every
designer seen earlier in the query order having a strictly larger count
(first-seen tie-break), and writes the assignment back to the context
project. -/
theorem handleAssignUser_least_workload (a : ActionSpec) (p : Project) (db : DBState)
    (now : Nat) (hrole : a.role = some Role.designer)
    (hstrat : a.strategy = some "least_workload")
    (hne : designersOf db ≠ []) :
    ∃ d pre suf,
      selectLeastWorkload (designersOf db) (activeProjectCount db) = some d ∧
      designersOf db = pre ++ d :: suf ∧
      (∀ x ∈ designersOf db, activeProjectCount db d.id ≤ activeProjectCount db x.id) ∧
      (∀ x ∈ pre, activeProjectCount db d.id < activeProjectCount db x.id) ∧
      (handleAssignUser a (some p) db now).1 =
        some { p with designer_id := some d.id, updated_at := now } ∧
      (handleAssignUser a (some p) db now).2.2 = some d.id := by
  match hds : designersOf db, hne with
  | d0 :: rest, _ =>
    obtain ⟨hmin, pre, suf, hdec, hpre⟩ :=
      pickMin_spec (fun u => activeProjectCount db u.id) rest d0
    refine ⟨pickMin (fun u => activeProjectCount db u.id) d0 rest, pre, suf,
      by simp [selectLeastWorkload], hdec, hmin, hpre, ?_, ?_⟩ <;>
      simp [handleAssignUser, hrole, hstrat, hds, selectLeastWorkload]

/-- The designer pool for the C9 witness: designers 1, 2 and 3 with active
project counts 2, 0 and 1. -/
def dbC9 : DBState :=
  { projects := [{ id := 11, status := Status.inDesign, designer_id := some 1 },
                 { id := 12, status := Status.pendingApproval, designer_id := some 1 },
                 { id := 13, status := Status.inDesign, designer_id := some 3 },
                 { id := 9, status := Status.pendingQuote }],
    users := [⟨1, Role.designer, false⟩, ⟨2, Role.designer, false⟩,
              ⟨3, Role.designer, false⟩] }

/-- The `assign_user` action of the C9 witness. -/
def actC9 : ActionSpec :=
  { atype := some ActionType.assignUser, role := some Role.designer,
    strategy := some "least_workload" }

/-- Witness for C9: among counts {1 ↦ 2, 2 ↦ 0, 3 ↦ 1} the designer with id 2
is selected. -/
theorem handleAssignUser_least_workload_witness :
    (actC9.role = some Role.designer) ∧
    (actC9.strategy = some "least_workload") ∧
    (designersOf dbC9 ≠ []) ∧
    (selectLeastWorkload (designersOf dbC9) (activeProjectCount dbC9) =
      some ⟨2, Role.designer, false⟩) ∧
    (activeProjectCount dbC9 1 = 2 ∧ activeProjectCount dbC9 2 = 0 ∧
      activeProjectCount dbC9 3 = 1) ∧
    (∃ d pre suf,
      selectLeastWorkload (designersOf dbC9) (activeProjectCount dbC9) = some d ∧
      designersOf dbC9 = pre ++ d :: suf ∧
      (∀ x ∈ designersOf dbC9, activeProjectCount dbC9 d.id ≤ activeProjectCount dbC9 x.id) ∧
      (∀ x ∈ pre, activeProjectCount dbC9 d.id < activeProjectCount dbC9 x.id) ∧
      (handleAssignUser actC9 (some { id := 9, status := Status.pendingQuote }) dbC9 7).1 =
        some { (Project.mk 9 Status.pendingQuote none 0 none none false false 0) with
                 designer_id := some d.id, updated_at := 7 } ∧
      (handleAssignUser actC9 (some { id := 9, status := Status.pendingQuote }) dbC9 7).2.2 =
        some d.id) :=
  ⟨rfl, rfl, by decide, by decide, by decide,
   handleAssignUser_least_workload actC9
     (Project.mk 9 Status.pendingQuote none 0 none none false false 0) dbC9 7
     rfl rfl (by decide)⟩

end AIMS
